import Mathlib

/-!
Verification of the FioriMCP UI5 extraction and interaction code.

Strings from the JavaScript source are modelled as lists of characters
(`Str`), and each JavaScript function used by the claims is translated
into a Lean function over that representation.  DOM queries performed by
`page.evaluate` snippets are modelled by records whose fields hold the
values those queries would return.
-/

/-- Character lists stand in for JavaScript strings. -/
abbrev Str := List Char

/-- JS `String.prototype.startsWith` on character lists. -/
def beginsWith : Str → Str → Bool
  | _, [] => true
  | [], _ :: _ => false
  | c :: cs, d :: ds => c == d && beginsWith cs ds

/-- JS `String.prototype.endsWith` on character lists. -/
def strEndsWith (s pat : Str) : Bool :=
  beginsWith s.reverse pat.reverse

/-- JS `String.prototype.includes` on character lists. -/
def hasSub : Str → Str → Bool
  | [], needle => needle.isEmpty
  | c :: cs, needle => beginsWith (c :: cs) needle || hasSub cs needle

/-- Remainder of a string after the first occurrence of `sep`
(`none` when `sep` does not occur).  Models the scan done by JS
`split(sep)` to produce the text after the first separator. -/
def dropThrough (sep : Str) : Str → Option Str
  | [] => none
  | c :: cs =>
    if beginsWith (c :: cs) sep then some (List.drop sep.length (c :: cs))
    else dropThrough sep cs

/-- Characters before the first occurrence of `sep` (whole string when
`sep` does not occur); JS `split(sep)[0]`. -/
def takeUntilOcc (sep : Str) : Str → Str
  | [] => []
  | c :: cs =>
    if beginsWith (c :: cs) sep then []
    else c :: takeUntilOcc sep cs

/-- JS `split(sep)[1]`: the segment between the first and second
occurrences of `sep`; `none` when `sep` does not occur. -/
def splitSeg1 (sep s : Str) : Option Str :=
  (dropThrough sep s).map (takeUntilOcc sep)

/-- JS `split('/').pop()`: the suffix after the last slash (single-char
separator occurrences cannot overlap, so the last segment is the suffix
after the last occurrence). -/
def lastSegSlash (s : Str) : Str :=
  (s.reverse.takeWhile fun c => !(c == '/')).reverse

/-- JS `id.split('--').pop()`: scan left to right consuming
non-overlapping double-dash occurrences, returning the final segment
(`acc` holds the reversed current segment). -/
def lastDoubleDashSeg (acc : Str) : Str → Str
  | [] => acc.reverse
  | '-' :: '-' :: rest => lastDoubleDashSeg [] rest
  | c :: cs => lastDoubleDashSeg (c :: acc) cs

/-- JS whitespace test used by `trim` (the source replaces non-breaking
spaces before trimming). -/
def isJsSpace (c : Char) : Bool :=
  c == ' ' || c == '\n' || c == '\t' || c == '\r'

/-- JS `String.prototype.trim`. -/
def jsTrim (s : Str) : Str :=
  ((s.dropWhile isJsSpace).reverse.dropWhile isJsSpace).reverse

/-- JS `a || b` over optional strings: `undefined` and the empty string
are falsy. -/
def jsOr (a b : Option Str) : Option Str :=
  match a with
  | some s => if s == [] then b else some s
  | none => b

/-- JS truthiness of an optional string. -/
def jsTruthy (a : Option Str) : Bool :=
  match a with
  | some s => !(s == [])
  | none => false

/-- JS `Array.prototype.join(sep)` on string lists. -/
def joinSep (sep : Str) : List Str → Str
  | [] => []
  | [x] => x
  | x :: y :: rest => x ++ sep ++ joinSep sep (y :: rest)

/-! ## Identifier Codec (`src/extract-all.js` `cssEscape`, also
`escapeCss` in the scanner) -/

/-- The character class of the source regex
`/([ #.;?+*~\':"!^$\[\]()=>|\/@])/g`.  Note that it contains the colon. -/
def specialChars : Str :=
  [' ', '#', '.', ';', '?', '+', '*', '~', '\'', ':', '"', '!', '^', '$',
   '[', ']', '(', ')', '=', '>', '|', '/', '@']

/-- `cssEscape`: prefix every special character with a backslash. -/
def cssEscape (id : Str) : Str :=
  (id.map (fun c => if specialChars.contains c then ['\\', c] else [c])).flatten

/-! ## Action id classification (`src/extract-tables.js` / `src/extract-all.js`
`classifyActionId`) -/

/-- `classifyActionId(id)`; `none` models a null/undefined id. -/
def classifyActionId (id : Option Str) : String :=
  match id with
  | none => "unknown"
  | some s =>
    if s == [] then "unknown"
    else if hasSub s "::StandardAction::".data then "standard"
    else if strEndsWith s "-settings".data || hasSub s "-export".data then "standard"
    else if hasSub s "showHideDetails".data then "standard"
    else if hasSub s "toolbar-overflowButton".data then "standard"
    else if hasSub s "::CustomAction::".data then "custom"
    else "custom_candidate"

/-! ## Scanner output records (shape of `scan.json` controls consumed by
`src/extract-all.js`) -/

/-- Inner element ids sniffed inside one filter-bar item. -/
structure InnerIds where
  inputId : Option Str
  selectId : Option Str
  dateId : Option Str
deriving DecidableEq

/-- One filter-bar item as it appears in `filterBarInfo.items`. -/
structure FilterItem where
  id : Option Str
  localId : Option Str
  labelText : Option Str
  propertyKey : Option Str
  innerIds : InnerIds
deriving DecidableEq

/-- `filterBarInfo` of a filter-bar control. -/
structure FilterBarInfo where
  filterItemCount : Option Nat
  items : List FilterItem
deriving DecidableEq

/-- One control record from `scan.json`. -/
structure Control where
  id : Option Str
  localId : Option Str
  typeName : Option Str
  roleHint : Option Str
  text : Option Str
  labelText : Option Str
  bindingConditions : Option Str
  filterBarInfo : Option FilterBarInfo
deriving DecidableEq

/-- Selector bundle of a canonical filter descriptor. -/
structure FilterSelectors where
  filterFieldCss : Option Str
  inputCss : Option Str
  selectCss : Option Str
  dateCss : Option Str
deriving DecidableEq

/-- Canonical persisted filter descriptor (`all.json` `filters` entry). -/
structure FilterDescriptor where
  propertyKey : Str
  label : Option Str
  filterFieldId : Option Str
  localId : Option Str
  selectors : FilterSelectors
deriving DecidableEq

/-! ## Filter reconciliation (`src/extract-all.js` `extractFilters`) -/

/-- Item count of a filter-bar control:
`filterBarInfo?.filterItemCount ?? (filterBarInfo?.items?.length ?? 0)`. -/
def fbCount (c : Control) : Nat :=
  match c.filterBarInfo with
  | none => 0
  | some info =>
    match info.filterItemCount with
    | some n => n
    | none => info.items.length

/-- `filterBars.reduce((best, cur) => curCount > bestCount ? cur : best,
filterBars[0])`: the first filter bar with the maximal item count. -/
def pickPrimaryFilterBar : List Control → Option Control
  | [] => none
  | b :: rest =>
    some ((b :: rest).foldl (fun best cur => if fbCount cur > fbCount best then cur else best) b)

/-- Selector built from an id when the id is truthy:
`x ? `#${cssEscape(x)}` : undefined`. -/
def idSelector (x : Option Str) : Option Str :=
  match x with
  | some s => if s == [] then none else some ('#' :: cssEscape s)
  | none => none

/-- Descriptor built from one retained filter item (dedup key `k`). -/
def mkFilterDescriptor (k : Str) (it : FilterItem) : FilterDescriptor :=
  { propertyKey := k
    label := jsOr it.labelText none
    filterFieldId := it.id
    localId := it.localId
    selectors :=
      { filterFieldCss := idSelector it.id
        inputCss := idSelector it.innerIds.inputId
        selectCss := idSelector it.innerIds.selectId
        dateCss := idSelector it.innerIds.dateId } }

/-- Dedup key of a filter item: `it.propertyKey || it.localId || it.id`,
`none` when the result is falsy. -/
def itemKey (it : FilterItem) : Option Str :=
  match jsOr (jsOr it.propertyKey it.localId) it.id with
  | some s => if s == [] then none else some s
  | none => none

/-- The dedup loop over filter items: keep the first occurrence of each
key, skip items with a falsy key. -/
def dedupFilterItems (seen : List Str) : List FilterItem → List FilterDescriptor
  | [] => []
  | it :: rest =>
    match itemKey it with
    | none => dedupFilterItems seen rest
    | some k =>
      if seen.contains k then dedupFilterItems seen rest
      else mkFilterDescriptor k it :: dedupFilterItems (k :: seen) rest

/-- Conversion of a standalone `sap.ui.mdc.FilterField` control into a
filter item (the union step of `extractFilters`). -/
def fieldToItem (f : Control) : FilterItem :=
  { id := f.id
    localId := f.localId
    labelText := jsOr f.labelText f.text
    propertyKey :=
      match f.bindingConditions with
      | some s => if s == [] then none else some (lastSegSlash s)
      | none => none
    innerIds := ⟨none, none, none⟩ }

/-- `extractFilters(controls)` from `src/extract-all.js`. -/
def extractFilters (controls : List Control) : List FilterDescriptor :=
  let filterBars := controls.filter fun c =>
    c.roleHint == some "filterbar".data && c.filterBarInfo.isSome
  let fb := pickPrimaryFilterBar filterBars
  let items :=
    match fb with
    | some f => match f.filterBarInfo with
      | some info => info.items
      | none => []
    | none => []
  let allFields := controls.filter fun c => c.typeName == some "sap.ui.mdc.FilterField".data
  let existingIds := items.map (·.id)
  let items := items ++ (allFields.filter fun f => !(existingIds.contains f.id)).map fieldToItem
  dedupFilterItems [] items

/-! ## Table reconciliation (`src/extract-all.js` `extractTables` and the
dialog-column merge in `main`) -/

/-- `getText(c)`: `c?.text || c?.labelText || undefined`. -/
def getText (c : Control) : Option Str :=
  jsOr c.text (jsOr c.labelText none)

/-- One toolbar action of a table descriptor. -/
structure TableAction where
  id : Str
  text : Option Str
  actionType : String
  selector : Str
deriving DecidableEq

/-- One column of a table descriptor. -/
structure Column where
  propertyKey : Str
  label : Str
  headerColumnId : Option Str
  headerColumnCss : Option Str
deriving DecidableEq

/-- Selector bundle of a table descriptor. -/
structure TableSelectors where
  tableCss : Str
  innerTableCss : Option Str
  listUlCss : Option Str
  selectAllCss : Option Str
deriving DecidableEq

/-- Canonical persisted table descriptor (`all.json` `tables` entry). -/
structure TableDescriptor where
  tableId : Str
  innerTableId : Option Str
  listUlId : Option Str
  selectors : TableSelectors
  actions : List TableAction
  customActions : List TableAction
  columns : List Column
  columnsSource : Option Str
deriving DecidableEq

/-- The column collection loop of `extractTables`: derive each column key
from the id infix `<base>::C::`, deduplicate by key, first occurrence
provides the header control and label. -/
def columnLoop (basePrefix : Str) (colIdControls : List Control) (seen : List Str) :
    List Control → List Column
  | [] => []
  | c :: rest =>
    match c.id with
    | none => columnLoop basePrefix colIdControls seen rest
    | some cid =>
      match splitSeg1 (basePrefix ++ "::C::".data) cid with
      | none => columnLoop basePrefix colIdControls seen rest
      | some after =>
        if after == [] then columnLoop basePrefix colIdControls seen rest
        else
          let key := takeUntilOcc ['-'] after
          if key == [] || seen.contains key then columnLoop basePrefix colIdControls seen rest
          else
            let headerId := basePrefix ++ "::C::".data ++ key
            let headerControl := (colIdControls.find? fun hc => hc.id == some headerId).getD c
            let label := (jsOr (getText headerControl) (some key)).getD key
            let headerColumnId := headerId ++ "-innerColumn".data
            { propertyKey := key, label := label, headerColumnId := some headerColumnId,
              headerColumnCss := some ('#' :: cssEscape headerColumnId) } ::
              columnLoop basePrefix colIdControls (key :: seen) rest

/-- One table descriptor built from a root control with id `tableId`. -/
def extractTable (controls : List Control) (tableId : Str) : TableDescriptor :=
  let basePrefix := tableId
  let innerTable := controls.find? fun c => c.id == some (basePrefix ++ "-innerTable".data)
  let listUl := controls.find? fun c => c.id == some (basePrefix ++ "-innerTable-listUl".data)
  let toolbarPrefix := basePrefix ++ "-toolbar".data
  let actionCandidates := controls.filter fun c =>
    match c.id with
    | some i =>
      beginsWith i toolbarPrefix || beginsWith i (basePrefix ++ "::".data) ||
        beginsWith i (basePrefix ++ "-export".data) || strEndsWith i "-settings".data
    | none => false
  let actions := actionCandidates.filterMap fun c =>
    match c.id, c.typeName with
    | some cid, some t =>
      if hasSub t "Button".data then
        some ({ id := cid, text := getText c, actionType := classifyActionId (some cid),
                selector := '#' :: cssEscape cid } : TableAction)
      else none
    | _, _ => none
  let customActions := actions.filter fun a =>
    a.actionType == "custom" || a.actionType == "custom_candidate"
  let colIdControls := controls.filter fun c =>
    match c.id with
    | some i => hasSub i (basePrefix ++ "::C::".data)
    | none => false
  let columns := columnLoop basePrefix colIdControls [] colIdControls
  let selectAllId := basePrefix ++ "-innerTable-sa".data
  let selectAll := controls.find? fun c => c.id == some selectAllId
  { tableId := tableId
    innerTableId := innerTable.bind (·.id)
    listUlId := listUl.bind (·.id)
    selectors :=
      { tableCss := '#' :: cssEscape tableId
        innerTableCss := idSelector (innerTable.bind (·.id))
        listUlCss := idSelector (listUl.bind (·.id))
        selectAllCss := if selectAll.isSome then some ('#' :: cssEscape selectAllId) else none }
    actions := actions
    customActions := customActions
    columns := columns
    columnsSource := none }

/-- `extractTables(controls)` from `src/extract-all.js`. -/
def extractTables (controls : List Control) : List TableDescriptor :=
  controls.filterMap fun c =>
    match c.id with
    | some i =>
      if hasSub i "::table::".data && strEndsWith i "::LineItem".data then
        some (extractTable controls i)
      else none
    | none => none

/-- A dialog-sourced column carries no derived key; the label is used as
the property key. -/
def labelOnlyColumn (label : Str) : Column :=
  { propertyKey := label, label := label, headerColumnId := none, headerColumnCss := none }

/-- The dialog-column merge loop of `main`: push a label-only column for
every dialog label absent from the pre-merge label set. -/
def mergeDialogColumns (columns : List Column) (dialogLabels : List Str) : List Column :=
  let existingLabels := columns.map (·.label)
  dialogLabels.foldl
    (fun merged l => if existingLabels.contains l then merged else merged ++ [labelOnlyColumn l])
    columns

/-- One entry of `scan.extras.tablesP13n` (settings-dialog column pass). -/
structure P13nTable where
  tableId : Str
  columns : List Str
deriving DecidableEq

/-- Apply one settings-dialog entry: the first table matched by id or by
selector containment receives the merged column list. -/
def applyP13nOne (t : P13nTable) : List TableDescriptor → List TableDescriptor
  | [] => []
  | x :: rest =>
    if x.tableId == t.tableId || hasSub x.selectors.tableCss (cssEscape t.tableId) then
      { x with columns := mergeDialogColumns x.columns t.columns,
               columnsSource := some "scan+dialog".data } :: rest
    else x :: applyP13nOne t rest

/-- The whole dialog-column merge pass of `main` over all `tablesP13n`
entries. -/
def mergeP13nPass (tables : List TableDescriptor) (p13n : List P13nTable) : List TableDescriptor :=
  p13n.foldl (fun acc t => applyP13nOne t acc) tables

/-! ## Filter resolution (`setFilter` of the generated MCP server) -/

/-- `normalize(str)` of `setFilter`: lowercase, then strip every
character matched by the source regex `/[-_s]/g` — the hyphen, the
underscore and the letter `s` (the regex has no backslash before `s`). -/
def normalizeTerm (s : Str) : Str :=
  (s.map Char.toLower).filter fun c => !(c == '-' || c == '_' || c == 's')

/-- The single search predicate of `setFilter`'s `find` call: normalized
equality or substring containment, on propertyKey or label. -/
def filterMatches (searchTerm : Str) (f : FilterDescriptor) : Bool :=
  normalizeTerm f.propertyKey == searchTerm ||
  normalizeTerm (f.label.getD []) == searchTerm ||
  hasSub (normalizeTerm f.propertyKey) searchTerm ||
  hasSub (normalizeTerm (f.label.getD [])) searchTerm

/-- `all.filters.find(...)` in `setFilter`: one forward scan, the first
descriptor satisfying any criterion wins. -/
def findFilter (filters : List FilterDescriptor) (propertyKey : Str) : Option FilterDescriptor :=
  filters.find? (filterMatches (normalizeTerm propertyKey))

/-- How a label renders in a JS template literal (`undefined` when the
label is absent). -/
def labelDisplay (f : FilterDescriptor) : Str :=
  match f.label with
  | some s => s
  | none => "undefined".data

/-- One line of the not-found enumeration: `- ${propertyKey} (${label})`. -/
def filterLine (f : FilterDescriptor) : Str :=
  "- ".data ++ f.propertyKey ++ " (".data ++ labelDisplay f ++ ")".data

/-- The full not-found message of `setFilter`. -/
def notFoundMessage (propertyKey : Str) (filters : List FilterDescriptor) : Str :=
  "Filter not found: ".data ++ propertyKey ++
  "\n\nAvailable filters:\n".data ++
  joinSep ['\n'] (filters.map filterLine) ++
  "\n\nPlease use one of the property keys above.".data

/-- The page interaction chosen by `setFilter` (`clickSelectOption`
covers the trigger click plus the popup-item click). -/
inductive PageAction where
  | fillInput (selector : Str) (value : Str)
  | clickSelectOption (selector : Str) (value : Str)
  | typeIntoField (selector : Option Str) (value : Str)
deriving DecidableEq

/-- Outcome of `setFilter`: either the not-found payload (no page
interaction) or an interaction plus the success message. -/
inductive SetFilterOutcome where
  | notFound (message : Str)
  | interact (act : PageAction) (message : Str)
deriving DecidableEq

/-- `Filter ${label} (${propertyKey}) set to ${value}`. -/
def setFilterSuccessMessage (f : FilterDescriptor) (value : Str) : Str :=
  "Filter ".data ++ labelDisplay f ++ " (".data ++ f.propertyKey ++ ") set to ".data ++ value

/-- `setFilter(propertyKey, value)` of the generated MCP server. -/
def setFilter (filters : List FilterDescriptor) (propertyKey value : Str) : SetFilterOutcome :=
  match findFilter filters propertyKey with
  | none => .notFound (notFoundMessage propertyKey filters)
  | some f =>
    let msg := setFilterSuccessMessage f value
    if jsTruthy f.selectors.inputCss then
      .interact (.fillInput (f.selectors.inputCss.getD []) value) msg
    else if jsTruthy f.selectors.selectCss then
      .interact (.clickSelectOption (f.selectors.selectCss.getD []) value) msg
    else
      .interact (.typeIntoField f.selectors.filterFieldCss value) msg

/-! ## Post-click scenario classification (`executeAction` and
`executeTableAction` of the generated MCP server) -/

/-- One list item of a message popover (its extracted text element's
content and its class attribute). -/
structure MsgItem where
  text : Str
  className : Str
deriving DecidableEq

/-- A rendered message popover (`.sapMMsgView` and variants). -/
structure MsgPopover where
  items : List MsgItem
deriving DecidableEq

/-- A rendered message-box dialog (its text element's content and the
dialog's class attribute). -/
structure MsgBox where
  text : Str
  className : Str
deriving DecidableEq

/-- A rendered modal dialog (`.sapMDialog.sapMDialogOpen`): whether it
has a form-like region and whether it has a footer. -/
structure OpenDialog where
  hasForm : Bool
  hasFooter : Bool
deriving DecidableEq

/-- The post-click DOM facts queried by the classifiers. -/
structure DomState where
  msgPopover : Option MsgPopover
  msgBoxes : List MsgBox
  msgStrips : List Str
  openDialog : Option OpenDialog
  objectPagePresent : Bool
  formFieldsPresent : Bool
deriving DecidableEq

/-- Severity from CSS class inspection, defaulting to Information. -/
def severityOfClass (cls : Str) : String :=
  if hasSub cls "Error".data then "Error"
  else if hasSub cls "Warning".data then "Warning"
  else if hasSub cls "Success".data then "Success"
  else "Information"

/-- One collected message. -/
structure Message where
  severity : String
  text : Str
deriving DecidableEq

/-- The message-collection `evaluate` of `executeAction`: popover items
with nonempty trimmed text, then message-box dialogs with nonempty
trimmed text. -/
def collectMessages (d : DomState) : List Message :=
  let popoverMsgs :=
    match d.msgPopover with
    | none => []
    | some p =>
      p.items.filterMap fun li =>
        let text := jsTrim li.text
        if text == [] then none
        else some { severity := severityOfClass li.className, text := text }
  let boxMsgs := d.msgBoxes.filterMap fun dlg =>
    let text := jsTrim dlg.text
    if text == [] then none
    else some { severity := severityOfClass dlg.className, text := text }
  popoverMsgs ++ boxMsgs

/-- `dialog && hasForm && hasFooter` (the popup-dialog test shared by
both classifiers). -/
def dialogFormFooter (d : DomState) : Bool :=
  match d.openDialog with
  | some dlg => dlg.hasForm && dlg.hasFooter
  | none => false

/-- Scenario classification of `executeAction`: messages are collected
first, and any nonempty collection short-circuits to `error_messages`
before the dialog is examined. -/
def executeActionScenario (d : DomState) : String :=
  if (collectMessages d).length > 0 then "error_messages"
  else if dialogFormFooter d then "popup_dialog"
  else if d.objectPagePresent || d.formFieldsPresent then "form_opened"
  else "action_completed"

/-- Scenario classification of `executeTableAction`: the open dialog with
form and footer is checked first, then any message surface by presence. -/
def executeTableActionScenario (d : DomState) : String :=
  if dialogFormFooter d then "popup_dialog"
  else if d.msgPopover.isSome || !d.msgBoxes.isEmpty || !d.msgStrips.isEmpty then "error_messages"
  else if d.objectPagePresent || d.formFieldsPresent then "form_opened"
  else "action_completed"

/-! ## Row extraction (`getTableRows` of the generated MCP server,
`extractRows` in `src/read-rows.js`) -/

/-- One body cell: its column-association attribute, its `textContent`,
and the `textContent` of each nested `span`. -/
structure Cell where
  colId : Option Str
  textContent : Str
  spanTexts : List Str
deriving DecidableEq

/-- Cell value: the trimmed direct text, falling back to the trimmed
space-join of the nested span texts when it is empty. -/
def cellText (td : Cell) : Str :=
  let t := jsTrim td.textContent
  if t == [] then jsTrim (joinSep [' '] td.spanTexts) else t

/-- JS `replace` with an end-anchored pattern: drop the suffix when
present. -/
def stripTailStr (s pat : Str) : Str :=
  if strEndsWith s pat then s.take (s.length - pat.length) else s

/-- Column key derived from a header cell id: the segment after
`::C::` with a trailing `-innerColumn` removed, falling back to the
header id itself when the key is empty. -/
def headerKey (hid : Str) : Str :=
  let after :=
    match splitSeg1 "::C::".data hid with
    | some a => a
    | none => []
  let key := stripTailStr after "-innerColumn".data
  if key == [] then hid else key

/-- JS object assignment `m[k] = v` over an association list: a later
assignment to the same key overwrites. -/
def mapSet (m : List (Str × Str)) (k v : Str) : List (Str × Str) :=
  if m.any fun p => p.1 == k then
    m.map fun p => if p.1 == k then (k, v) else p
  else m ++ [(k, v)]

/-- JS object lookup `m[k]`. -/
def mapGet (m : List (Str × Str)) (k : Str) : Option Str :=
  (m.find? fun p => p.1 == k).map (·.2)

/-- `columnMap[hid] = key || hid` over all header cells. -/
def buildColumnMap (headerIds : List Str) : List (Str × Str) :=
  headerIds.foldl (fun m hid => mapSet m hid (headerKey hid)) []

/-- Row key of a cell: `columnMap[colId] || colId`, skipped when falsy. -/
def cellKey (columnMap : List (Str × Str)) (td : Cell) : Option Str :=
  let lookup :=
    match td.colId with
    | some cid => mapGet columnMap cid
    | none => none
  match jsOr lookup td.colId with
  | some k => if k == [] then none else some k
  | none => none

/-- One row object: `rowObj[key] = text` over the row's data cells. -/
def extractRowObj (columnMap : List (Str × Str)) (cells : List Cell) : List (Str × Str) :=
  cells.foldl
    (fun row td =>
      match cellKey columnMap td with
      | some k => mapSet row k (cellText td)
      | none => row)
    []

/-- One rendered table as queried by `getTableRows`. -/
structure TableDom where
  listId : Str
  headerIds : List Str
  bodyRows : List (List Cell)
deriving DecidableEq

/-- Per-table result of `getTableRows`. -/
structure TableRowsResult where
  tableListId : Str
  rows : List (List (Str × Str))
  rowCount : Nat
deriving DecidableEq

/-- Row extraction for one table. -/
def getTableRowsOne (t : TableDom) : TableRowsResult :=
  let columnMap := buildColumnMap t.headerIds
  let rows := t.bodyRows.map (extractRowObj columnMap)
  { tableListId := t.listId, rows := rows, rowCount := rows.length }

/-- `getTableRows()` over every rendered `-innerTable-listUl` table. -/
def getTableRows (tables : List TableDom) : List TableRowsResult :=
  tables.map getTableRowsOne

/-! ## Control scan (`extractUi5Controls` in the scanner) -/

/-- The interactive-role type-prefix allowlist. -/
def isInteractive (typeName : Option Str) : Bool :=
  match typeName with
  | none => false
  | some t =>
    ["sap.m.Button", "sap.m.OverflowToolbarButton", "sap.m.MenuButton", "sap.m.Link",
     "sap.m.Input", "sap.m.SearchField", "sap.m.TextArea", "sap.m.Select",
     "sap.m.ComboBox", "sap.m.MultiComboBox", "sap.m.CheckBox", "sap.m.RadioButton",
     "sap.m.Switch", "sap.m.DatePicker", "sap.m.DateRangeSelection",
     "sap.m.SegmentedButton", "sap.ui.table.Table", "sap.m.Table", "sap.m.List",
     "sap.ui.comp.smartfilterbar.SmartFilterBar", "sap.ui.mdc.FilterBar",
     "sap.fe.macros.FilterBarAPI", "sap.m.Dialog", "sap.f.Dialog"].any
      fun p => beginsWith t p.data

/-- Host shell/chrome type test. -/
def isShellType (typeName : Option Str) : Bool :=
  match typeName with
  | none => false
  | some t => beginsWith t "sap.ushell".data || beginsWith t "sap.ui.core.".data

/-- Optional-chaining helpers for `type?.startsWith` etc. -/
def optStarts (t : Option Str) (pat : Str) : Bool :=
  match t with
  | some s => beginsWith s pat
  | none => false

def optIncludes (t : Option Str) (pat : Str) : Bool :=
  match t with
  | some s => hasSub s pat
  | none => false

def optEnds (t : Option Str) (pat : Str) : Bool :=
  match t with
  | some s => strEndsWith s pat
  | none => false

/-- Role classification by type-name prefixes in the source's fixed
priority order; first match wins. -/
def classifyRoleHint (ty : Option Str) (role : Option Str) : Option Str :=
  if optStarts ty "sap.m.Button".data || role == some "button".data ||
      optIncludes ty "MenuButton".data then some "button".data
  else if ["sap.m.Input", "sap.m.SearchField", "sap.m.TextArea", "sap.m.DatePicker",
      "sap.m.DateRangeSelection"].any (fun p => optStarts ty p.data) then some "input".data
  else if ["sap.m.Select", "sap.m.ComboBox", "sap.m.MultiComboBox"].any
      (fun p => optStarts ty p.data) then some "select".data
  else if optIncludes ty ".Table".data || optEnds ty ".List".data then some "table".data
  else if optIncludes ty "FilterBar".data then some "filterbar".data
  else if optEnds ty ".Dialog".data || role == some "dialog".data then some "dialog".data
  else if optIncludes ty "Link".data then some "link".data
  else none

/-- `id?.includes('--') ? id.split('--').pop() : id`. -/
def localIdOf (id : Option Str) : Option Str :=
  match id with
  | some i => if hasSub i "--".data then some (lastDoubleDashSeg [] i) else some i
  | none => none

/-- The role-neutral attributes read from a registry entry after the
skip checks (display text, labels, binding path); each accessor may
throw, which the per-entry catch turns into a skip. -/
structure ScanAttrs where
  text : Option Str
  labelText : Option Str
  value : Option Str
  bindingConditions : Option Str
deriving DecidableEq

instance exceptDecEq {ε α : Type} [DecidableEq ε] [DecidableEq α] :
    DecidableEq (Except ε α) := fun
  | .ok a, .ok b =>
    if h : a = b then .isTrue (by rw [h])
    else .isFalse (by intro hh; cases hh; exact h rfl)
  | .ok _, .error _ => .isFalse (by intro h; cases h)
  | .error _, .ok _ => .isFalse (by intro h; cases h)
  | .error a, .error b =>
    if h : a = b then .isTrue (by rw [h])
    else .isFalse (by intro hh; cases hh; exact h rfl)

/-- One live registry entry: every framework accessor the scan calls,
each able to fail (`Except.error` models a thrown exception). -/
structure RawEntry where
  getTypeName : Except Str (Option Str)
  getId : Except Str (Option Str)
  getDomRef : Except Str Bool
  getRoleAttr : Except Str (Option Str)
  getAttrs : Except Str ScanAttrs
  getFilterBarInfo : Except Str FilterBarInfo
deriving DecidableEq

/-- Processing of one registry entry, before the per-entry catch:
`none` is a deliberate skip (no render anchor, or shell type), an
`error` is a thrown extraction failure.  The filter-bar sub-extraction
sits in its own inner try/catch, so its failure only drops
`filterBarInfo`, never the entry. -/
def extractEntry (includeShell : Bool) (e : RawEntry) : Except Str (Option Control) := do
  let ty ← e.getTypeName
  let id ← e.getId
  let hasDom ← e.getDomRef
  if !hasDom then return none
  if !includeShell && isShellType ty && !(isInteractive ty) then return none
  let role ← e.getRoleAttr
  let attrs ← e.getAttrs
  let roleHint := classifyRoleHint ty role
  let fbInfo :=
    if roleHint == some "filterbar".data then e.getFilterBarInfo.toOption else none
  return some
    { id := id, localId := localIdOf id, typeName := ty, roleHint := roleHint,
      text := attrs.text, labelText := attrs.labelText,
      bindingConditions := attrs.bindingConditions, filterBarInfo := fbInfo }

/-- Scan output. -/
structure ScanResult where
  ready : Bool
  controls : List Control
deriving DecidableEq

/-- `extractUi5Controls()`: not-ready when the registry is absent, else
every entry is processed under a per-entry catch that skips it on any
extraction failure. -/
def extractUi5Controls (registryPresent includeShell : Bool)
    (entries : List RawEntry) : ScanResult :=
  if !registryPresent then { ready := false, controls := [] }
  else
    { ready := true
      controls := entries.filterMap fun e =>
        match extractEntry includeShell e with
        | .ok v => v
        | .error _ => none }

/-! ## Concrete fixtures used by witnesses and counterexamples -/

/-- The characters the spec (§4.1) lists for `escapeSelector`: space,
`#`, `.`, `;`, `?`, `+`, `*`, `~`, both quotes, `!`, `^`, `$`, brackets,
parens, `=`, `>`, `|`, `/`, `@`.  Written from the spec's words for
comparison with `specialChars`; the colon is absent. -/
def specListedChars : Str :=
  [' ', '#', '.', ';', '?', '+', '*', '~', '\'', '"', '!', '^', '$',
   '[', ']', '(', ')', '=', '>', '|', '/', '@']

/-- Post-click DOM state holding both an open form-and-footer dialog and
a message popover with one error item. -/
def dlgBoth : DomState :=
  { msgPopover := some ⟨[⟨"Boom".data, "sapMMsgViewItem sapMMsgViewItemError".data⟩]⟩
    msgBoxes := []
    msgStrips := []
    openDialog := some ⟨true, true⟩
    objectPagePresent := false
    formFieldsPresent := false }

/-- A composite currency cell: empty direct text, `100` and `USD` in
separate spans. -/
def demoCurrencyCell : Cell :=
  { colId := some "app::table::T::LineItem::C::Price-innerColumn".data
    textContent := []
    spanTexts := ["100".data, "USD".data] }

/-- A three-row table whose only column is the composite currency cell. -/
def demoTable : TableDom :=
  { listId := "app::table::T::LineItem-innerTable-listUl".data
    headerIds := ["app::table::T::LineItem::C::Price-innerColumn".data]
    bodyRows := [[demoCurrencyCell], [demoCurrencyCell], [demoCurrencyCell]] }

/-- A descriptor whose propertyKey contains `material` as a proper
substring. -/
def fdMaterialNumber : FilterDescriptor :=
  { propertyKey := "materialnumber".data, label := some "Material Number".data,
    filterFieldId := none, localId := none,
    selectors := ⟨none, some "#i0".data, none, none⟩ }

/-- A descriptor whose propertyKey is exactly `material`. -/
def fdMaterial : FilterDescriptor :=
  { propertyKey := "material".data, label := some "Material".data,
    filterFieldId := none, localId := none,
    selectors := ⟨none, some "#i1".data, none, none⟩ }

/-- A descriptor whose label `Travel` resolves a query that is no
propertyKey of the set. -/
def fdTravelAgency : FilterDescriptor :=
  { propertyKey := "agencyid".data, label := some "Travel".data,
    filterFieldId := none, localId := none,
    selectors := ⟨some "#ff".data, some "#inp".data, none, none⟩ }

/-- A filter-bar control with a given item count. -/
def fbCtrl (n : Nat) (nm : String) : Control :=
  { id := some nm.data, localId := none, typeName := none,
    roleHint := some "filterbar".data, text := none, labelText := none,
    bindingConditions := none, filterBarInfo := some ⟨some n, []⟩ }

/-- A key-bearing column with label `A`. -/
def colA : Column :=
  { propertyKey := "A".data, label := "A".data,
    headerColumnId := none, headerColumnCss := none }

/-- A line-item table root control. -/
def ctlRoot : Control :=
  { id := some "app::table::T::LineItem".data, localId := none,
    typeName := some "sap.m.Table".data, roleHint := none, text := none,
    labelText := none, bindingConditions := none, filterBarInfo := none }

/-- A column control whose derived key `Name` differs from its header
text `Full Name`. -/
def ctlNameCol : Control :=
  { id := some "app::table::T::LineItem::C::Name".data, localId := none,
    typeName := some "sap.m.Column".data, roleHint := none,
    text := some "Full Name".data, labelText := none,
    bindingConditions := none, filterBarInfo := none }

/-- A settings-dialog pass whose only label equals the existing column's
key (not its label). -/
def demoP13n : P13nTable :=
  { tableId := "app::table::T::LineItem".data, columns := ["Name".data] }

/-- The selectors the dialog-field extraction snippet would see on a
well-formed button entry; every accessor succeeds. -/
def goodEntry : RawEntry :=
  { getTypeName := .ok (some "sap.m.Button".data)
    getId := .ok (some "view--btnGo".data)
    getDomRef := .ok true
    getRoleAttr := .ok none
    getAttrs := .ok ⟨some "Go".data, none, none, none⟩
    getFilterBarInfo := .ok ⟨none, []⟩ }

/-- A registry entry whose attribute extraction throws. -/
def badEntry : RawEntry :=
  { getTypeName := .ok (some "sap.m.Input".data)
    getId := .ok (some "view--inp".data)
    getDomRef := .ok true
    getRoleAttr := .ok none
    getAttrs := .error "TypeError: boom".data
    getFilterBarInfo := .ok ⟨none, []⟩ }


/-! ## Supporting lemmas -/

theorem beginsWith_append_self (a b : Str) : beginsWith (a ++ b) a = true := by
  induction a with
  | nil => simp [beginsWith]
  | cons c cs ih => simp [beginsWith, ih]

theorem hasSub_append_right (x t m : Str) (h : hasSub t m = true) :
    hasSub (x ++ t) m = true := by
  induction x with
  | nil => simpa using h
  | cons c cs ih =>
    cases hct : cs ++ t with
    | nil =>
      have : hasSub (cs ++ t) m = true := ih
      rw [hct] at this
      simp [hasSub] at this ⊢
      simp [this]
      exact Or.inl rfl
    | cons d ds =>
      simp [hasSub]
      right
      have : hasSub (cs ++ t) m = true := ih
      simpa using this

theorem hasSub_mid (p m q : Str) : hasSub (p ++ (m ++ q)) m = true := by
  apply hasSub_append_right
  cases hmq : m ++ q with
  | nil =>
    have hm : m = [] := by
      cases m with
      | nil => rfl
      | cons c cs => simp at hmq
    simp [hm, hasSub]
  | cons c cs =>
    rw [← hmq]
    cases m with
    | nil =>
      simp [hmq, hasSub]
      exact Or.inl rfl
    | cons d ds =>
      have : (d :: ds) ++ q = d :: (ds ++ q) := rfl
      rw [this]
      simp [hasSub]
      left
      have := beginsWith_append_self (d :: ds) q
      simpa using this

theorem hasSub_of_decomp {s m : Str} (h : ∃ p q, s = p ++ (m ++ q)) :
    hasSub s m = true := by
  obtain ⟨p, q, rfl⟩ := h
  exact hasSub_mid p m q

theorem joinSep_decomp (sep : Str) :
    ∀ (xs : List Str) (x : Str), x ∈ xs →
      ∃ p q, joinSep sep xs = p ++ (x ++ q) := by
  intro xs
  induction xs with
  | nil => intro x hx; simp at hx
  | cons a l ih =>
    intro x hx
    cases l with
    | nil =>
      simp at hx
      subst hx
      exact ⟨[], [], by simp [joinSep]⟩
    | cons b l' =>
      rcases List.mem_cons.mp hx with hxa | hxl
      · subst hxa
        refine ⟨[], sep ++ joinSep sep (b :: l'), ?_⟩
        simp [joinSep]
      · obtain ⟨p, q, hpq⟩ := ih x hxl
        refine ⟨a ++ sep ++ p, q, ?_⟩
        simp [joinSep, hpq]

theorem find?_first {α : Type} (p : α → Bool) :
    ∀ (l : List α) (x : α), l.find? p = some x →
      ∃ l₁ l₂, l = l₁ ++ x :: l₂ ∧ p x = true ∧ ∀ y ∈ l₁, p y = false := by
  intro l
  induction l with
  | nil => intro x h; simp [List.find?] at h
  | cons a l ih =>
    intro x h
    by_cases ha : p a = true
    · rw [List.find?_cons_of_pos _ ha] at h
      obtain rfl : a = x := by simpa using h
      exact ⟨[], l, by simp, ha, by simp⟩
    · rw [List.find?_cons_of_neg _ ha] at h
      have ha' : p a = false := by simpa using ha
      obtain ⟨l₁, l₂, rfl, hx, hall⟩ := ih x h
      refine ⟨a :: l₁, l₂, by simp, hx, ?_⟩
      intro y hy
      rcases List.mem_cons.mp hy with rfl | hy'
      · exact ha'
      · exact hall y hy'

theorem foldl_max_spec {α : Type} (f : α → Nat) :
    ∀ (l : List α) (b r : α),
      l.foldl (fun best cur => if f cur > f best then cur else best) b = r →
      r ∈ b :: l ∧ (∀ y ∈ b :: l, f y ≤ f r) ∧
        ∃ pre suf, b :: l = pre ++ r :: suf ∧ ∀ y ∈ pre, f y < f r := by
  intro l
  induction l with
  | nil =>
    intro b r h
    simp at h
    subst h
    exact ⟨by simp, by simp, [], [], by simp, by simp⟩
  | cons c l' ih =>
    intro b r h
    by_cases hc : f c > f b
    · have hstep : (if f c > f b then c else b) = c := by simp [hc]
      rw [List.foldl_cons, hstep] at h
      obtain ⟨hmem, hmax, pre, suf, hdecomp, hpre⟩ := ih c r h
      have hcr : f c ≤ f r := hmax c (by simp)
      refine ⟨?_, ?_, b :: pre, suf, ?_, ?_⟩
      · exact List.mem_cons.mpr (Or.inr hmem)
      · intro y hy
        rcases List.mem_cons.mp hy with rfl | hy'
        · omega
        · exact hmax y hy'
      · rw [List.cons_append, ← hdecomp]
      · intro y hy
        rcases List.mem_cons.mp hy with rfl | hy'
        · omega
        · exact hpre y hy'
    · have hstep : (if f c > f b then c else b) = b := by simp [hc]
      rw [List.foldl_cons, hstep] at h
      obtain ⟨hmem, hmax, pre, suf, hdecomp, hpre⟩ := ih b r h
      have hbr : f b ≤ f r := hmax b (by simp)
      refine ⟨?_, ?_, ?_⟩
      · rcases List.mem_cons.mp hmem with rfl | h1
        · exact List.mem_cons.mpr (Or.inl rfl)
        · exact List.mem_cons.mpr (Or.inr (List.mem_cons.mpr (Or.inr h1)))
      · intro y hy
        rcases List.mem_cons.mp hy with rfl | hy'
        · exact hbr
        · rcases List.mem_cons.mp hy' with rfl | hy''
          · omega
          · exact hmax y (List.mem_cons.mpr (Or.inr hy''))
      · cases pre with
        | nil =>
          have hdx : b :: l' = r :: suf := by simpa using hdecomp
          have hb : b = r := (List.cons.inj hdx).1
          refine ⟨[], c :: l', ?_, by simp⟩
          rw [← hb]
          simp
        | cons p0 pre' =>
          have hdx : b :: l' = p0 :: (pre' ++ r :: suf) := by simpa using hdecomp
          have hb : b = p0 := (List.cons.inj hdx).1
          have htail : l' = pre' ++ r :: suf := (List.cons.inj hdx).2
          have hp0r : f p0 < f r := hpre p0 (by simp)
          have hfb : f b = f p0 := by rw [hb]
          refine ⟨p0 :: c :: pre', suf, ?_, ?_⟩
          · rw [hb, htail]
            simp
          · intro y hy
            rcases List.mem_cons.mp hy with rfl | hy'
            · exact hp0r
            · rcases List.mem_cons.mp hy' with rfl | hy''
              · omega
              · exact hpre y (List.mem_cons.mpr (Or.inr hy''))

theorem foldl_skip_append {α β : Type} (C : α → Bool) (g : α → β) :
    ∀ (ls : List α) (acc : List β),
      ls.foldl (fun m l => if C l then m else m ++ [g l]) acc
        = acc ++ (ls.filter fun l => !C l).map g := by
  intro ls
  induction ls with
  | nil => intro acc; simp
  | cons l ls ih =>
    intro acc
    by_cases h : C l = true
    · simp [List.foldl_cons, h, ih]
    · have h' : C l = false := by simpa using h
      simp [List.foldl_cons, h', ih]

theorem mergeDialogColumns_eq (columns : List Column) (dialogLabels : List Str) :
    mergeDialogColumns columns dialogLabels
      = columns ++
        ((dialogLabels.filter fun l => !((columns.map Column.label).contains l)).map
          labelOnlyColumn) :=
  foldl_skip_append (fun l => (columns.map Column.label).contains l) labelOnlyColumn
    dialogLabels columns

theorem dedupFilterItems_keys (items : List FilterItem) :
    ∀ seen : List Str,
      ((dedupFilterItems seen items).map FilterDescriptor.propertyKey).Nodup
      ∧ ∀ k ∈ (dedupFilterItems seen items).map FilterDescriptor.propertyKey, k ∉ seen := by
  induction items with
  | nil => intro seen; simp [dedupFilterItems]
  | cons it rest ih =>
    intro seen
    cases hk : itemKey it with
    | none =>
      simpa [dedupFilterItems, hk] using ih seen
    | some k =>
      by_cases hs : k ∈ seen
      · simpa [dedupFilterItems, hk, hs] using ih seen
      · obtain ⟨hnd, hnotin⟩ := ih (k :: seen)
        have hres : dedupFilterItems seen (it :: rest)
            = mkFilterDescriptor k it :: dedupFilterItems (k :: seen) rest := by
          simp [dedupFilterItems, hk, hs]
        rw [hres]
        constructor
        · simp only [List.map_cons]
          refine List.nodup_cons.mpr ⟨?_, hnd⟩
          intro hmem
          have := hnotin _ hmem
          simp [mkFilterDescriptor] at this
        · intro k' hk'
          simp only [List.map_cons] at hk'
          rcases List.mem_cons.mp hk' with rfl | hk''
          · simpa [mkFilterDescriptor] using hs
          · have := hnotin _ hk''
            intro hmem
            exact this (List.mem_cons.mpr (Or.inr hmem))

theorem columnLoop_keys (bp : Str) (cic : List Control) (cs : List Control) :
    ∀ seen : List Str,
      ((columnLoop bp cic seen cs).map Column.propertyKey).Nodup
      ∧ ∀ k ∈ (columnLoop bp cic seen cs).map Column.propertyKey, k ∉ seen := by
  induction cs with
  | nil => intro seen; simp [columnLoop]
  | cons c rest ih =>
    intro seen
    cases hid : c.id with
    | none => simpa [columnLoop, hid] using ih seen
    | some cid =>
      cases hsp : splitSeg1 (bp ++ "::C::".data) cid with
      | none => simpa [columnLoop, hid, hsp] using ih seen
      | some after =>
        by_cases ha : after = []
        · simpa [columnLoop, hid, hsp, ha] using ih seen
        · by_cases hk0 : takeUntilOcc ['-'] after = []
          · simpa [columnLoop, hid, hsp, ha, hk0] using ih seen
          · by_cases hks : takeUntilOcc ['-'] after ∈ seen
            · simpa [columnLoop, hid, hsp, ha, hk0, hks] using ih seen
            · obtain ⟨hnd, hnotin⟩ := ih (takeUntilOcc ['-'] after :: seen)
              have hres :
                  (columnLoop bp cic seen (c :: rest)).map Column.propertyKey
                    = takeUntilOcc ['-'] after ::
                      (columnLoop bp cic (takeUntilOcc ['-'] after :: seen) rest).map
                        Column.propertyKey := by
                simp [columnLoop, hid, hsp, ha, hk0, hks]
              rw [hres]
              constructor
              · refine List.nodup_cons.mpr ⟨?_, hnd⟩
                intro hmem
                have := hnotin _ hmem
                simp at this
              · intro k' hk'
                rcases List.mem_cons.mp hk' with rfl | hk''
                · exact hks
                · have := hnotin _ hk''
                  intro hmem
                  exact this (List.mem_cons.mpr (Or.inr hmem))

theorem cssEscape_noop {id : Str} (h : ∀ c ∈ id, c ∉ specialChars) : cssEscape id = id := by
  induction id with
  | nil => rfl
  | cons c cs ih =>
    have hc : c ∉ specialChars := h c (by simp)
    have hcs : cssEscape cs = cs := ih fun x hx => h x (by simp [hx])
    simp [cssEscape, hc] at hcs ⊢
    exact hcs

/-! ## Claims -/

/-- C10: `classifyActionId` returns `unknown` on a null/undefined or
empty id, and on every non-empty id returns one of `standard`, `custom`
or `custom_candidate`. -/
theorem classifyActionId_total (s : Str) (h : s ≠ []) :
    classifyActionId none = "unknown" ∧ classifyActionId (some []) = "unknown" ∧
      (classifyActionId (some s) = "standard" ∨ classifyActionId (some s) = "custom" ∨
        classifyActionId (some s) = "custom_candidate") := by
  refine ⟨rfl, rfl, ?_⟩
  have hs : (s == []) = false := by simpa using h
  simp only [classifyActionId, hs, Bool.false_eq_true, if_false]
  repeat' split
  all_goals simp

/-- Witness for C10 at the id `x`. -/
theorem classifyActionId_total_witness :
    "x".data ≠ ([] : Str) ∧
      (classifyActionId none = "unknown" ∧ classifyActionId (some []) = "unknown" ∧
        (classifyActionId (some "x".data) = "standard" ∨
          classifyActionId (some "x".data) = "custom" ∨
          classifyActionId (some "x".data) = "custom_candidate")) :=
  ⟨by decide, classifyActionId_total "x".data (by decide)⟩

/-- C5 counterexample: the id `a:b` contains none of the characters the
spec lists, yet `cssEscape` changes it, because the source's character
class also contains the colon. -/
theorem cssEscape_colon_cex :
    ("a:b".data.all fun c => !(specListedChars.contains c)) = true
    ∧ cssEscape "a:b".data ≠ "a:b".data := by
  decide

/-- C5 (amended): ids containing none of the characters of the source's
character class — the spec's list plus the colon — are returned
unchanged, and every character of the class (hence every spec-listed
character) is individually prefixed with one backslash. -/
theorem cssEscape_spec (id : Str) (h : ∀ c ∈ id, c ∉ specialChars) :
    cssEscape id = id
    ∧ cssEscape specialChars = (specialChars.map fun c => ['\\', c]).flatten
    ∧ cssEscape specListedChars = (specListedChars.map fun c => ['\\', c]).flatten
    ∧ specListedChars ⊆ specialChars :=
  ⟨cssEscape_noop h, by decide, by decide, by decide⟩

/-- Witness for C5 at the id `abc`. -/
theorem cssEscape_spec_witness :
    (∀ c ∈ "abc".data, c ∉ specialChars) ∧ cssEscape "abc".data = "abc".data :=
  ⟨by decide, (cssEscape_spec "abc".data (by decide)).1⟩

/-- C1 counterexample: a state holding both an open form-and-footer
dialog and a message popover with a nonempty item is classified
`error_messages`, not `popup_dialog`, by `executeAction`. -/
theorem executeAction_messages_first_cex :
    dialogFormFooter dlgBoth = true ∧ dlgBoth.msgPopover.isSome = true ∧
      executeActionScenario dlgBoth = "error_messages" ∧
      executeActionScenario dlgBoth ≠ "popup_dialog" := by
  decide

/-- C1 (amended): on a state with an open form-and-footer dialog,
`executeTableAction` classifies `popup_dialog`; `executeAction`
classifies `popup_dialog` only when no message text was collected, and
`error_messages` whenever some message surface yields nonempty text. -/
theorem scenario_priority_amended (d : DomState) (dlg : OpenDialog)
    (h1 : d.openDialog = some dlg) (h2 : dlg.hasForm = true) (h3 : dlg.hasFooter = true) :
    executeTableActionScenario d = "popup_dialog"
    ∧ (collectMessages d = [] → executeActionScenario d = "popup_dialog")
    ∧ (collectMessages d ≠ [] → executeActionScenario d = "error_messages") := by
  have hd : dialogFormFooter d = true := by simp [dialogFormFooter, h1, h2, h3]
  refine ⟨?_, ?_, ?_⟩
  · simp [executeTableActionScenario, hd]
  · intro hm
    simp [executeActionScenario, hm, hd]
  · intro hm
    have hpos : 0 < (collectMessages d).length := List.length_pos.mpr hm
    simp [executeActionScenario, hpos]

/-- Witness for C1 at the concrete state `dlgBoth`. -/
theorem scenario_priority_amended_witness :
    dlgBoth.openDialog = some ⟨true, true⟩ ∧
      executeTableActionScenario dlgBoth = "popup_dialog" ∧
      executeActionScenario dlgBoth = "error_messages" := by
  have h := scenario_priority_amended dlgBoth ⟨true, true⟩ rfl rfl rfl
  exact ⟨rfl, h.1, h.2.2 (by decide)⟩

/-- C6: a cell with empty trimmed direct text yields the trimmed
space-join of its nested span texts; in particular every row of the
three-row demo table maps the `Price` column to `100 USD`. -/
theorem cellText_composite (td : Cell) (h : jsTrim td.textContent = []) :
    cellText td = jsTrim (joinSep [' '] td.spanTexts)
    ∧ (getTableRows [demoTable]).map TableRowsResult.rowCount = [3]
    ∧ ∀ r ∈ (getTableRowsOne demoTable).rows, mapGet r "Price".data = some "100 USD".data := by
  refine ⟨?_, by decide, by decide⟩
  simp [cellText, h]

/-- Witness for C6 at the composite currency cell. -/
theorem cellText_composite_witness :
    jsTrim demoCurrencyCell.textContent = [] ∧
      cellText demoCurrencyCell = "100 USD".data :=
  ⟨by decide, ((cellText_composite demoCurrencyCell (by decide)).1).trans (by decide)⟩

/-- C2 counterexample: the query `material` equals the second
descriptor's propertyKey exactly, the first descriptor matches only by
substring, yet `setFilter`'s lookup resolves to the first descriptor. -/
theorem resolveFilter_staged_cex :
    fdMaterial.propertyKey = "material".data
    ∧ normalizeTerm fdMaterialNumber.propertyKey ≠ normalizeTerm "material".data
    ∧ normalizeTerm (fdMaterialNumber.label.getD []) ≠ normalizeTerm "material".data
    ∧ findFilter [fdMaterialNumber, fdMaterial] "material".data = some fdMaterialNumber := by
  decide

/-- C2 (amended): `setFilter`'s lookup is a single forward scan with the
four OR'd criteria of `filterMatches` (normalized equality or substring,
on propertyKey or label; normalization lowercases and strips hyphen,
underscore and the letter `s`): the first descriptor satisfying any
criterion wins, even over a later exact propertyKey match. -/
theorem setFilter_single_pass (filters : List FilterDescriptor) (q : Str)
    (f : FilterDescriptor) (h : findFilter filters q = some f) :
    filterMatches (normalizeTerm q) f = true
    ∧ ∃ l₁ l₂, filters = l₁ ++ f :: l₂ ∧
        ∀ g ∈ l₁, filterMatches (normalizeTerm q) g = false := by
  obtain ⟨l₁, l₂, rfl, hx, hall⟩ := find?_first _ filters f h
  exact ⟨hx, l₁, l₂, rfl, hall⟩

/-- Witness for C2 at the two-descriptor set. -/
theorem setFilter_single_pass_witness :
    findFilter [fdMaterialNumber, fdMaterial] "material".data = some fdMaterialNumber ∧
      filterMatches (normalizeTerm "material".data) fdMaterialNumber = true :=
  ⟨by decide,
    (setFilter_single_pass [fdMaterialNumber, fdMaterial] "material".data fdMaterialNumber
      (by decide)).1⟩

/-- C7 counterexample: `travel` is not a propertyKey of the set, yet
`setFilter` resolves it through the label and performs the input
interaction instead of returning a not-found outcome. -/
theorem setFilter_notFound_cex :
    fdTravelAgency.propertyKey ≠ "travel".data
    ∧ [fdTravelAgency].map FilterDescriptor.propertyKey = ["agencyid".data]
    ∧ setFilter [fdTravelAgency] "travel".data "Open".data
        = .interact (.fillInput "#inp".data "Open".data)
            (setFilterSuccessMessage fdTravelAgency "Open".data) := by
  decide

/-- C7 (amended): whenever the lookup misses on all four criteria,
`setFilter` returns the not-found outcome — no page interaction — whose
message enumerates every descriptor's propertyKey and label. -/
theorem setFilter_notFound_enumerates (filters : List FilterDescriptor) (key value : Str)
    (h : findFilter filters key = none) :
    setFilter filters key value = .notFound (notFoundMessage key filters)
    ∧ ∀ f ∈ filters,
        hasSub (notFoundMessage key filters) f.propertyKey = true
        ∧ hasSub (notFoundMessage key filters) (labelDisplay f) = true := by
  constructor
  · simp [setFilter, h]
  · intro f hf
    obtain ⟨p, q, hpq⟩ :=
      joinSep_decomp ['\n'] (filters.map filterLine) (filterLine f)
        (List.mem_map_of_mem _ hf)
    constructor
    · apply hasSub_of_decomp
      refine ⟨"Filter not found: ".data ++ key ++ "\n\nAvailable filters:\n".data ++
        p ++ "- ".data,
        " (".data ++ labelDisplay f ++ ")".data ++ q ++
          "\n\nPlease use one of the property keys above.".data, ?_⟩
      simp [notFoundMessage, hpq, filterLine, List.append_assoc]
    · apply hasSub_of_decomp
      refine ⟨"Filter not found: ".data ++ key ++ "\n\nAvailable filters:\n".data ++
        p ++ "- ".data ++ f.propertyKey ++ " (".data,
        ")".data ++ q ++ "\n\nPlease use one of the property keys above.".data, ?_⟩
      simp [notFoundMessage, hpq, filterLine, List.append_assoc]

/-- Witness for C7 at a query missing every criterion. -/
theorem setFilter_notFound_enumerates_witness :
    findFilter [fdTravelAgency] "qqq".data = none ∧
      setFilter [fdTravelAgency] "qqq".data "Open".data
        = .notFound (notFoundMessage "qqq".data [fdTravelAgency]) ∧
      hasSub (notFoundMessage "qqq".data [fdTravelAgency]) "agencyid".data = true := by
  have h := setFilter_notFound_enumerates [fdTravelAgency] "qqq".data "Open".data (by decide)
  refine ⟨by decide, h.1, ?_⟩
  have := (h.2 fdTravelAgency (by simp)).1
  simpa [fdTravelAgency] using this

/-- C8: among the scanned filter-bar controls, the reconciliation's
`reduce` selects a bar of maximal item count, and on ties the first-seen
one: the selected bar is preceded only by bars of strictly smaller
count. -/
theorem extractFilters_primary_bar (bars : List Control) (h : bars ≠ []) :
    ∃ fb, pickPrimaryFilterBar bars = some fb ∧ fb ∈ bars
      ∧ (∀ y ∈ bars, fbCount y ≤ fbCount fb)
      ∧ ∃ pre suf, bars = pre ++ fb :: suf ∧ ∀ y ∈ pre, fbCount y < fbCount fb := by
  cases bars with
  | nil => exact absurd rfl h
  | cons b rest =>
    have hcollapse :
        (b :: rest).foldl (fun best cur => if fbCount cur > fbCount best then cur else best) b
          = rest.foldl (fun best cur => if fbCount cur > fbCount best then cur else best) b := by
      simp [List.foldl_cons]
    obtain ⟨hmem, hmax, pre, suf, hdec, hpre⟩ := foldl_max_spec fbCount rest b _ rfl
    refine ⟨_, ?_, hmem, hmax, pre, suf, hdec, hpre⟩
    show some _ = _
    rw [hcollapse]

theorem extractFilters_primary_bar_witness :
    ([fbCtrl 2 "a", fbCtrl 3 "b", fbCtrl 3 "c"] : List Control) ≠ [] ∧
      ∃ fb, pickPrimaryFilterBar [fbCtrl 2 "a", fbCtrl 3 "b", fbCtrl 3 "c"] = some fb
        ∧ fb ∈ [fbCtrl 2 "a", fbCtrl 3 "b", fbCtrl 3 "c"]
        ∧ (∀ y ∈ [fbCtrl 2 "a", fbCtrl 3 "b", fbCtrl 3 "c"], fbCount y ≤ fbCount fb)
        ∧ ∃ pre suf, [fbCtrl 2 "a", fbCtrl 3 "b", fbCtrl 3 "c"] = pre ++ fb :: suf
            ∧ ∀ y ∈ pre, fbCount y < fbCount fb :=
  ⟨by simp, extractFilters_primary_bar [fbCtrl 2 "a", fbCtrl 3 "b", fbCtrl 3 "c"] (by simp)⟩

/-- C4: the dialog-column merge never touches the pre-merge columns, a
dialog label equal to an existing column's label adds no entry bearing
that label, and a novel dialog label is appended after the pre-merge
columns as a label-only column. -/
theorem dialog_merge_add_only (cols : List Column) (dl : List Str) (L M : Str)
    (hL : L ∈ cols.map Column.label) (hM : M ∉ cols.map Column.label) (hMdl : M ∈ dl) :
    (mergeDialogColumns cols dl).take cols.length = cols
    ∧ (mergeDialogColumns cols dl).filter (fun c => c.label == L)
        = cols.filter (fun c => c.label == L)
    ∧ labelOnlyColumn M ∈ (mergeDialogColumns cols dl).drop cols.length := by
  rw [mergeDialogColumns_eq]
  refine ⟨?_, ?_, ?_⟩
  · exact List.take_left cols _
  · rw [List.filter_append]
    have hnil :
        (((dl.filter fun l => !((cols.map Column.label).contains l)).map
          labelOnlyColumn).filter fun c => c.label == L) = [] := by
      rw [List.filter_eq_nil]
      intro c hc
      obtain ⟨l, hl, rfl⟩ := List.mem_map.mp hc
      have h2 := (List.mem_filter.mp hl).2
      have hln : l ∉ cols.map Column.label := by simpa using h2
      simp [labelOnlyColumn]
      intro heq
      exact hln (heq ▸ hL)
    rw [hnil, List.append_nil]
  · rw [List.drop_left]
    refine List.mem_map.mpr ⟨M, ?_, rfl⟩
    exact List.mem_filter.mpr ⟨hMdl, by simpa using hM⟩

/-- Witness for C4 at one existing column `A` and dialog labels
`[A, B]`. -/
theorem dialog_merge_add_only_witness :
    "A".data ∈ [colA].map Column.label
    ∧ "B".data ∉ [colA].map Column.label
    ∧ "B".data ∈ ["A".data, "B".data]
    ∧ (mergeDialogColumns [colA] ["A".data, "B".data]).take 1 = [colA]
    ∧ labelOnlyColumn "B".data ∈ (mergeDialogColumns [colA] ["A".data, "B".data]).drop 1 := by
  have h := dialog_merge_add_only [colA] ["A".data, "B".data] "A".data "B".data
    (by simp [colA]) (by simp [colA]) (by simp)
  exact ⟨by simp [colA], by simp [colA], by simp, h.1, h.2.2⟩

/-- C3 counterexample: after the dialog-column merge the demo table holds
two columns with propertyKey `Name` — the merge deduplicates by label
only, so a dialog label equal to an existing column's key duplicates the
key. -/
theorem merge_duplicate_key_cex :
    (mergeP13nPass (extractTables [ctlRoot, ctlNameCol]) [demoP13n]).map
        (fun t => t.columns.map Column.propertyKey) = [["Name".data, "Name".data]]
    ∧ ¬ (["Name".data, "Name".data] : List Str).Nodup := by
  constructor
  · rfl
  · simp

/-- C3 (amended): after the scan-pass dedups no two filter descriptors
share a propertyKey and no two columns of any extracted table share a
propertyKey; the later dialog-sourced merge guarantees only
label-uniqueness against pre-merge labels, so it can duplicate a
propertyKey. -/
theorem extract_keys_unique (controls : List Control) :
    ((extractFilters controls).map FilterDescriptor.propertyKey).Nodup
    ∧ ∀ t ∈ extractTables controls, (t.columns.map Column.propertyKey).Nodup := by
  constructor
  · exact (dedupFilterItems_keys _ []).1
  · intro t ht
    obtain ⟨c, hc, hct⟩ := List.mem_filterMap.mp ht
    cases hid : c.id with
    | none => rw [hid] at hct; simp at hct
    | some i =>
      rw [hid] at hct
      have hct' : (if (hasSub i "::table::".data && strEndsWith i "::LineItem".data) = true
          then some (extractTable controls i) else none) = some t := hct
      by_cases hcond : (hasSub i "::table::".data && strEndsWith i "::LineItem".data) = true
      · rw [if_pos hcond] at hct'
        obtain rfl : extractTable controls i = t := by simpa using hct'
        exact (columnLoop_keys _ _ _ []).1
      · rw [if_neg hcond] at hct'
        simp at hct'

/-- C9: a registry entry whose extraction throws is skipped and only it:
the scan still reports ready, its output equals the scan without the
faulty entry, and every well-formed entry's control is present. -/
theorem scan_skips_faulty (inc : Bool) (pre post : List RawEntry) (e : RawEntry) (err : Str)
    (h : extractEntry inc e = .error err) :
    (extractUi5Controls true inc (pre ++ e :: post)).ready = true
    ∧ (extractUi5Controls true inc (pre ++ e :: post)).controls
        = (extractUi5Controls true inc (pre ++ post)).controls
    ∧ ∀ x ∈ pre ++ e :: post, ∀ c, extractEntry inc x = .ok (some c) →
        c ∈ (extractUi5Controls true inc (pre ++ e :: post)).controls := by
  refine ⟨rfl, ?_, ?_⟩
  · simp [extractUi5Controls, List.filterMap_append, List.filterMap_cons, h]
  · intro x hx c hcx
    have hg : (match extractEntry inc x with
        | .ok v => v
        | .error _ => none) = some c := by
      rw [hcx]
    exact List.mem_filterMap.mpr ⟨x, hx, hg⟩

/-- Witness for C9: a good button entry plus an entry whose attribute
accessors throw. -/
theorem scan_skips_faulty_witness :
    extractEntry false badEntry = .error "TypeError: boom".data
    ∧ (extractUi5Controls true false [goodEntry, badEntry]).ready = true
    ∧ (extractUi5Controls true false [goodEntry, badEntry]).controls
        = (extractUi5Controls true false [goodEntry]).controls := by
  have h := scan_skips_faulty false [goodEntry] [] badEntry "TypeError: boom".data (by rfl)
  exact ⟨by rfl, h.1, h.2.1⟩

/-- Witness for C3 (amended) at the demo controls: the extracted table's
column keys are duplicate-free before any dialog merge. -/
theorem extract_keys_unique_witness :
    ((extractFilters [ctlRoot, ctlNameCol]).map FilterDescriptor.propertyKey).Nodup
    ∧ (((extractTable [ctlRoot, ctlNameCol]
          "app::table::T::LineItem".data).columns.map Column.propertyKey)).Nodup := by
  have h := extract_keys_unique [ctlRoot, ctlNameCol]
  refine ⟨h.1, ?_⟩
  apply h.2
  have hts : extractTables [ctlRoot, ctlNameCol]
      = [extractTable [ctlRoot, ctlNameCol] "app::table::T::LineItem".data] := rfl
  rw [hts]
  exact List.mem_singleton.mpr rfl
